/- Verification of the commit-synchronization layer of scrapbox-userscript-std.

   The data model (changes, commits, head snapshots, error names) is embedded
   from the TypeScript sources under src/.  The retry engine itself (push.ts)
   is referenced by src/browser/websocket/deletePage.ts but its code is not in
   the repository excerpt, so the engine is modelled from the specification
   (spec.md sections 4.4, 4.5, 5, 7); those definitions carry a doc comment
   starting with "Modelled from the spec:". -/
import Mathlib

namespace ScrapboxStd

/-- A document line, after scrapbox-jp/types `BaseLine` (id, text, userId,
created, updated), as re-exported by the repository and carried in
`HeadData.lines` of src/browser/websocket/pull.ts. -/
structure Line where
  id : String
  text : String
  userId : String
  created : Int
  updated : Int
deriving DecidableEq

/-- The head snapshot returned by `pull`, from the `HeadData` interface of
src/browser/websocket/pull.ts. -/
structure HeadData where
  commitId : String
  pageId : String
  persistent : Bool
  image : Option String
  pin : Int
  links : List String
  projectLinks : List String
  lines : List Line
deriving DecidableEq

/-- The fields of the REST `Page` record that src/browser/websocket/pull.ts
destructures from a successful `getPage` result. -/
structure PageRes where
  id : String
  commitId : String
  persistent : Bool
  image : Option String
  pin : Int
  links : List String
  projectLinks : List String
  lines : List Line
deriving DecidableEq

/-- The error union of `getPage` in src/rest (PageError | FetchError):
NotFoundError, NotLoggedInError, NotMemberError, TooLongURIError and HTTPError
from pages.ts, plus NetworkError and AbortError from robustFetch.ts. -/
inductive GetPageError
  | notFoundError (message : String)
  | notLoggedInError (message : String)
  | notMemberError (message : String)
  | tooLongURIError (message : String)
  | httpError (status : Nat) (statusText : String)
  | networkError (message : String)
  | abortError (message : String)
deriving DecidableEq

/-- The State Fetcher `pull` of src/browser/websocket/pull.ts, as a function of
the `getPage` result it awaits.  The source throws one generic `Error` whose
message depends only on `project` and `title` whenever `result.ok` is false,
regardless of the error kind; on success it repacks the listed fields. -/
def pull (project : String) (title : String)
    (result : Except GetPageError PageRes) : Except String HeadData :=
  match result with
  | Except.error _ =>
      Except.error
        ("You have no privilege of editing \"/" ++ project ++ "/" ++ title ++ "\".")
  | Except.ok p =>
      Except.ok
        { commitId := p.commitId
          pageId := p.id
          persistent := p.persistent
          image := p.image
          links := p.links
          projectLinks := p.projectLinks
          pin := p.pin
          lines := p.lines }

/-- An error value as inspected by `isPageCommitError` of
src/browser/websocket/error.ts: anything carrying a `name` string. -/
structure CommitErrorLike where
  name : String
deriving DecidableEq

/-- The internal list `pageCommitErrorNames` of src/browser/websocket/error.ts. -/
def pageCommitErrorNames : List String :=
  ["SocketIOError", "DuplicateTitleError", "NotFastForwardError"]

/-- The type guard `isPageCommitError` of src/browser/websocket/error.ts:
`pageCommitErrorNames.includes(error.name)`. -/
def isPageCommitError (e : CommitErrorLike) : Bool :=
  pageCommitErrorNames.contains e.name

/-- The `Change` union of src/unnamed/part_003 (change.ts): InsertChange,
UpdateChange, DeleteChange, LinksChange, ProjectLinksChange, IconsChange,
DescriptionsChange, ImageChange, FilesChange, HelpFeelsChange,
infoboxDefinitionChange and TitleChange.  `PinChange` and `DeletePageChange`
are separate interfaces in the source and are kept separate here (see
`ChangeU`). -/
inductive Change
  | insert (afterId : String) (lineId : String) (text : String)
  | update (lineId : String) (text : String) (noTimestampUpdate : Bool)
  | delete (lineId : String)
  | links (titles : List String)
  | projectLinks (titles : List String)
  | icons (names : List String)
  | descriptions (texts : List String)
  | image (url : Option String)
  | files (ids : List String)
  | helpfeels (entries : List String)
  | infoboxDefinition (rows : List String)
  | title (text : String)
deriving DecidableEq

/-- An element of a commit's change list, after the `changes` field type of
`PageCommit` in src/browser/websocket/emit-events.ts:
`Change[] | [PinChange] | [DeletePageChange]`.  `pin` carries the PinChange
value; `deletePage` carries DeletePageChange's optional `merged` flag
(`false` when the `merged` key is absent, as in deletePage.ts). -/
inductive ChangeU
  | content (c : Change)
  | pin (value : Int)
  | deletePage (merged : Bool)
deriving DecidableEq

/-- Whether an element belongs to the plain `Change` union (neither a
PinChange nor a DeletePageChange). -/
def isContentChange : ChangeU → Bool
  | ChangeU.content _ => true
  | ChangeU.pin _ => false
  | ChangeU.deletePage _ => false

/-- The homogeneity invariant imposed by the `changes` type of `PageCommit`
(src/browser/websocket/emit-events.ts, `Change[] | [PinChange] |
[DeletePageChange]`): either every element is a plain content/metadata change,
or the list is exactly one pin change, or exactly one page deletion. -/
def validChanges (l : List ChangeU) : Bool :=
  l.all isContentChange ||
    (match l with
     | [ChangeU.pin _] => true
     | [ChangeU.deletePage _] => true
     | _ => false)

/-- A page commit, after the `PageCommit` interface of
src/browser/websocket/emit-events.ts.  The constant fields
`kind: "page"`, `cursor: null` and `freeze: true` are omitted as literals. -/
structure PageCommit where
  parentId : String
  projectId : String
  pageId : String
  userId : String
  changes : List ChangeU
deriving DecidableEq

/-- The structured acknowledgements of the commit interface
(`{data: {commitId}} | {error: {name, ...}}`), with the three error names of
src/browser/websocket/error.ts that the engine reacts to. -/
inductive CommitAck
  | ok (commitId : String)
  | socketIoError
  | duplicateTitleError
  | notFastForwardError
deriving DecidableEq

/-- Modelled from the spec: the result surface of the engine (push.ts is not
under src/).  `succeeded` returns a commit id; `failedDuplicateTitle` is the
terminal semantic error; `failedRetryExhausted` is the distinct exhaustion
error of spec section 7(f), raised only when the retry budget is spent;
`failedPrecondition` is the local validation failure of section 4.4. -/
inductive PushOutcome
  | succeeded (commitId : String)
  | failedDuplicateTitle
  | failedRetryExhausted
  | failedPrecondition
deriving DecidableEq

/-- Modelled from the spec: the decision one attempt hands back to the retry
loop — finish with an outcome, re-pull and rebase (stale parent), or resubmit
the same commit (transient channel failure, parent still believed valid). -/
inductive StepResult
  | done (out : PushOutcome)
  | retryPull
  | retrySame (c : PageCommit)
deriving DecidableEq

/-- Instrumentation of one engine run: how many pulls, Change Computer
invocations and submits happened, and every commit actually transmitted,
paired with the number of pulls performed before it was transmitted. -/
structure Trace where
  pullCount : Nat
  computeCount : Nat
  submitCount : Nat
  sent : List (PageCommit × Nat)
deriving DecidableEq

/-- The empty trace at the start of a run. -/
def initTrace : Trace :=
  { pullCount := 0, computeCount := 0, submitCount := 0, sent := [] }

/-- Modelled from the spec: the environment of one engine run (push.ts is not
under src/).  `computer` is the caller-supplied Change Computer, a pure
function of the head snapshot (spec section 4.5); `pulls n` is the snapshot
returned by the (n+1)-th successful pull; `acks n` is the server's
acknowledgement of the (n+1)-th transmitted commit. -/
structure EngineCtx where
  projectId : String
  userId : String
  computer : HeadData → List ChangeU
  pulls : Nat → HeadData
  acks : Nat → CommitAck

/-- Modelled from the spec: one submission (spec section 4.4).  The
homogeneity precondition is validated locally first; a violation is a local
failure and nothing is transmitted (the trace is unchanged).  Otherwise the
commit is transmitted (recorded in `sent` with the current pull count) and
the acknowledgement is classified: success and duplicate-title finish the
run, not-fast-forward asks for a rebase, a Socket.IO error asks for a
resubmission of the same commit. -/
def submitOnce (E : EngineCtx) (commit : PageCommit) (t : Trace) :
    StepResult × Trace :=
  if validChanges commit.changes then
    let t1 : Trace :=
      { t with submitCount := t.submitCount + 1
               sent := t.sent ++ [(commit, t.pullCount)] }
    match E.acks t.submitCount with
    | CommitAck.ok cid => (StepResult.done (PushOutcome.succeeded cid), t1)
    | CommitAck.duplicateTitleError =>
        (StepResult.done PushOutcome.failedDuplicateTitle, t1)
    | CommitAck.notFastForwardError => (StepResult.retryPull, t1)
    | CommitAck.socketIoError => (StepResult.retrySame commit, t1)
  else (StepResult.done PushOutcome.failedPrecondition, t)

/-- Modelled from the spec: one attempt of the engine (spec section 4.5).
With no pending commit it pulls the head, invokes the Change Computer on it,
short-circuits to success with the unchanged head's commit id if the change
list is empty, and otherwise submits a fresh commit anchored to the head just
pulled.  With a pending commit (transient-channel retry) it resubmits that
commit without pulling or recomputing. -/
def oneAttempt (E : EngineCtx) (copt : Option PageCommit) (t : Trace) :
    StepResult × Trace :=
  match copt with
  | some commit => submitOnce E commit t
  | none =>
      let head := E.pulls t.pullCount
      let changes := E.computer head
      let t2 : Trace :=
        { t with pullCount := t.pullCount + 1
                 computeCount := t.computeCount + 1 }
      match changes with
      | [] => (StepResult.done (PushOutcome.succeeded head.commitId), t2)
      | c :: cs =>
          submitOnce E
            { parentId := head.commitId
              projectId := E.projectId
              pageId := head.pageId
              userId := E.userId
              changes := c :: cs } t2

/-- Modelled from the spec: the Conflict Resolver / Retry Loop (spec section
4.5).  `remaining` is the retry budget still available: every retry (rebase
after not-fast-forward, or resubmission after a Socket.IO error) consumes one
unit, and when a retry is demanded with the budget at zero the run fails with
the distinct exhaustion error. -/
def engineLoop (E : EngineCtx) :
    Nat → Option PageCommit → Trace → PushOutcome × Trace
  | 0, copt, t =>
      match oneAttempt E copt t with
      | (StepResult.done out, t') => (out, t')
      | (StepResult.retryPull, t') => (PushOutcome.failedRetryExhausted, t')
      | (StepResult.retrySame _, t') => (PushOutcome.failedRetryExhausted, t')
  | r + 1, copt, t =>
      match oneAttempt E copt t with
      | (StepResult.done out, t') => (out, t')
      | (StepResult.retryPull, t') => engineLoop E r none t'
      | (StepResult.retrySame c, t') => engineLoop E r (some c) t'

/-- Modelled from the spec: a full engine run with retry budget `budget`,
starting from the empty trace with no pending commit. -/
def push (E : EngineCtx) (budget : Nat) : PushOutcome × Trace :=
  engineLoop E budget none initTrace

/-- The Change Computer that src/browser/websocket/deletePage.ts passes to
`push`: `(page) => page.persistent ? [{ deleted: true }] : []`. -/
def deletePageComputer (page : HeadData) : List ChangeU :=
  if page.persistent then [ChangeU.deletePage false] else []

/-- The `deletePage` call of src/browser/websocket/deletePage.ts: `push` with
`deletePageComputer`.  The page `title` is part of the document key handed to
`push` and does not otherwise enter the engine run. -/
def deletePageRun (projectId userId : String) (title : String)
    (pulls : Nat → HeadData) (acks : Nat → CommitAck) (budget : Nat) :
    PushOutcome × Trace :=
  push
    { projectId := projectId, userId := userId,
      computer := deletePageComputer, pulls := pulls, acks := acks } budget

/-- The user profile as consumed by `getCSRFToken` of src/unnamed/part_003
(auth.ts): only the `csrfToken` field of the `getProfile` payload is read. -/
structure UserProfile where
  csrfToken : String
deriving DecidableEq

/-- The error union of `getCSRFToken`: NetworkError, AbortError (robustFetch)
and HTTPError (responseIntoResult), as in its declared result type. -/
inductive CsrfError
  | networkError (message : String)
  | abortError (message : String)
  | httpError (status : Nat)
deriving DecidableEq

/-- The JavaScript `??` (nullish coalescing) on possibly-undefined strings, as
in `init?.csrf ?? globalThis._csrf`: the right operand is used only when the
left is undefined — an empty string on the left is kept. -/
def jsCoalesce (a b : Option String) : Option String :=
  match a with
  | some s => some s
  | none => b

/-- The `getCSRFToken` of src/unnamed/part_003 (auth.ts):
`const csrf = init?.csrf ?? globalThis._csrf;
 return csrf ? createOk(csrf) : mapForResult(await getProfile(init), (user) => user.csrfToken);`.
Arguments: `initCsrf` is `init?.csrf`, `globalCsrf` the ambient `_csrf`
global, and `profile` the result `getProfile` would produce if called.  The
Boolean of the result records whether the profile was fetched (a network
request): the conditional `csrf ? ... : ...` only awaits `getProfile` in its
falsy branch, and a JavaScript string is falsy exactly when it is empty. -/
def getCSRFToken (initCsrf globalCsrf : Option String)
    (profile : Except CsrfError UserProfile) : Bool × Except CsrfError String :=
  match jsCoalesce initCsrf globalCsrf with
  | some s =>
      if s = "" then (true, profile.map UserProfile.csrfToken)
      else (false, Except.ok s)
  | none => (true, profile.map UserProfile.csrfToken)

/-- Modelled from the spec: the phases a caller's synchronization request for
one document goes through (spec section 5): not requesting, queued behind the
per-document exclusivity constraint, or holding the in-flight commit. -/
inductive Phase
  | idle
  | waiting
  | holding
deriving DecidableEq

/-- Pointwise update of a phase assignment at one caller. -/
def setPhase (s : Nat → Phase) (i : Nat) (p : Phase) : Nat → Phase :=
  fun j => if j = i then p else s j

/-- Modelled from the spec: the engine's per-document serialization protocol
(spec section 5; push.ts is not under src/).  `docOf` assigns each caller the
document it synchronizes.  A caller may start a request at any time (it
queues), may move from queued to in-flight only when no other caller for the
same document is in flight (the per-document lock), and releases on
completion.  Callers of distinct documents are unconstrained. -/
inductive SyncStep (docOf : Nat → String) :
    (Nat → Phase) → (Nat → Phase) → Prop
  | request (s : Nat → Phase) (i : Nat) :
      s i = Phase.idle → SyncStep docOf s (setPhase s i Phase.waiting)
  | acquire (s : Nat → Phase) (i : Nat) :
      s i = Phase.waiting →
      (∀ j, j ≠ i → docOf j = docOf i → s j ≠ Phase.holding) →
      SyncStep docOf s (setPhase s i Phase.holding)
  | release (s : Nat → Phase) (i : Nat) :
      s i = Phase.holding → SyncStep docOf s (setPhase s i Phase.idle)

/-- The states reachable from the all-idle state under the serialization
protocol. -/
inductive SyncReachable (docOf : Nat → String) : (Nat → Phase) → Prop
  | start : SyncReachable docOf (fun _ => Phase.idle)
  | step {s u : Nat → Phase} :
      SyncReachable docOf s → SyncStep docOf s u → SyncReachable docOf u

/-- A concrete head snapshot used by the scripted scenarios. -/
def headOne : HeadData :=
  { commitId := "c0", pageId := "page1", persistent := true, image := none,
    pin := 0, links := [], projectLinks := [], lines := [] }

/-- The head snapshot after another editor's commit: same page, new head
commit id. -/
def headTwo : HeadData :=
  { headOne with commitId := "c1" }

/-- A sample content change used by the scripted scenarios. -/
def demoChange : ChangeU :=
  ChangeU.content (Change.descriptions ["demo"])

/-- A scripted run: the first pull returns `headOne`, every later pull
returns `headTwo`; the first submit is rejected as not fast-forward, every
later submit is accepted with commit id "c2". -/
def twoAttemptCtx : EngineCtx :=
  { projectId := "proj", userId := "user",
    computer := fun _ => [demoChange],
    pulls := fun n => if n = 0 then headOne else headTwo,
    acks := fun n =>
      if n = 0 then CommitAck.notFastForwardError else CommitAck.ok "c2" }

/-- The commit the engine builds on the first attempt of `twoAttemptCtx`. -/
def demoCommitOne : PageCommit :=
  { parentId := "c0", projectId := "proj", pageId := "page1",
    userId := "user", changes := [demoChange] }

/-- The rebased commit of the second attempt of `twoAttemptCtx`: same content,
re-anchored to the second snapshot. -/
def demoCommitTwo : PageCommit :=
  { demoCommitOne with parentId := "c1" }

/-- A scripted run whose Change Computer yields the empty change list. -/
def noopCtx : EngineCtx :=
  { twoAttemptCtx with computer := fun _ => [] }

/-- A scripted run in which every submit is rejected as not fast-forward
(unbroken stale-parent contention). -/
def nffCtx : EngineCtx :=
  { twoAttemptCtx with acks := fun _ => CommitAck.notFastForwardError }

/-- A scripted run in which the first submit is rejected with the
duplicate-title error. -/
def dupCtx : EngineCtx :=
  { twoAttemptCtx with acks := fun _ => CommitAck.duplicateTitleError }

/-- A head snapshot of a page that does not persist. -/
def nonPersistentHead : HeadData :=
  { headOne with persistent := false }

/-- Every commit recorded in a sent-list is anchored to the pull that
immediately preceded its transmission: the pair (c, k) means c was
transmitted after exactly k pulls, and its parent must be the commit id of
the k-th (most recent) snapshot. -/
def SentAnchored (pulls : Nat → HeadData) (l : List (PageCommit × Nat)) : Prop :=
  ∀ c k, (c, k) ∈ l → 1 ≤ k ∧ c.parentId = (pulls (k - 1)).commitId

/-- One submission preserves the anchoring invariant: if the commit being
submitted is anchored to the most recent pull, so is every commit recorded
afterwards, the pull count is unchanged, and a resubmission request carries
the very same commit. -/
theorem submitOnce_anchored (E : EngineCtx) (commit : PageCommit) (t : Trace)
    (hs : SentAnchored E.pulls t.sent)
    (h1 : 1 ≤ t.pullCount)
    (h2 : commit.parentId = (E.pulls (t.pullCount - 1)).commitId) :
    SentAnchored E.pulls (submitOnce E commit t).2.sent ∧
    (submitOnce E commit t).2.pullCount = t.pullCount ∧
    (∀ c, (submitOnce E commit t).1 = StepResult.retrySame c → c = commit) := by
  have hsent : SentAnchored E.pulls (t.sent ++ [(commit, t.pullCount)]) := by
    intro c k hmem
    rcases List.mem_append.1 hmem with hmem | hmem
    · exact hs c k hmem
    · simp at hmem
      exact ⟨hmem.2 ▸ h1, hmem.1 ▸ hmem.2 ▸ h2⟩
  unfold submitOnce
  split
  · cases h : E.acks t.submitCount with
    | ok cid => simp [h]; exact hsent
    | socketIoError =>
        simp [h]
        exact hsent
    | duplicateTitleError => simp [h]; exact hsent
    | notFastForwardError => simp [h]; exact hsent
  · exact ⟨hs, rfl, by simp⟩

/-- One attempt preserves the anchoring invariant and hands a correctly
anchored pending commit (if any) to the next level of the retry loop. -/
theorem oneAttempt_anchored (E : EngineCtx) (copt : Option PageCommit) (t : Trace)
    (hs : SentAnchored E.pulls t.sent)
    (hp : ∀ c, copt = some c → 1 ≤ t.pullCount ∧
        c.parentId = (E.pulls (t.pullCount - 1)).commitId) :
    SentAnchored E.pulls (oneAttempt E copt t).2.sent ∧
    (∀ c, (oneAttempt E copt t).1 = StepResult.retrySame c →
      1 ≤ (oneAttempt E copt t).2.pullCount ∧
      c.parentId = (E.pulls ((oneAttempt E copt t).2.pullCount - 1)).commitId) := by
  cases copt with
  | some commit =>
      obtain ⟨hp1, hp2⟩ := hp commit rfl
      obtain ⟨ha, hb, hc⟩ := submitOnce_anchored E commit t hs hp1 hp2
      simp only [oneAttempt]
      refine ⟨ha, ?_⟩
      intro c hres
      have hcc := hc c hres
      subst hcc
      rw [hb]
      exact ⟨hp1, hp2⟩
  | none =>
      simp only [oneAttempt]
      rcases hcomp : E.computer (E.pulls t.pullCount) with _ | ⟨c, cs⟩
      · refine ⟨?_, ?_⟩
        · intro c k hmem
          exact hs c k hmem
        · intro c hres
          simp at hres
      · obtain ⟨ha, hb, hc⟩ := submitOnce_anchored E
          { parentId := (E.pulls t.pullCount).commitId, projectId := E.projectId,
            pageId := (E.pulls t.pullCount).pageId, userId := E.userId,
            changes := c :: cs }
          { t with pullCount := t.pullCount + 1, computeCount := t.computeCount + 1 }
          hs (by simp) (by simp)
        refine ⟨ha, ?_⟩
        intro c' hres
        have hcc := hc c' hres
        subst hcc
        rw [hb]
        exact ⟨by simp, by simp⟩

/-- The retry loop preserves the anchoring invariant through every retry. -/
theorem engineLoop_anchored (E : EngineCtx) :
    ∀ (r : Nat) (copt : Option PageCommit) (t : Trace),
      SentAnchored E.pulls t.sent →
      (∀ c, copt = some c → 1 ≤ t.pullCount ∧
          c.parentId = (E.pulls (t.pullCount - 1)).commitId) →
      SentAnchored E.pulls (engineLoop E r copt t).2.sent := by
  intro r
  induction r with
  | zero =>
      intro copt t hs hp
      obtain ⟨ha, _⟩ := oneAttempt_anchored E copt t hs hp
      rcases h1 : oneAttempt E copt t with ⟨res, t'⟩
      rw [h1] at ha
      cases res <;> simp [engineLoop, h1] <;> exact ha
  | succ r ih =>
      intro copt t hs hp
      obtain ⟨ha, hr⟩ := oneAttempt_anchored E copt t hs hp
      rcases h1 : oneAttempt E copt t with ⟨res, t'⟩
      rw [h1] at ha hr
      cases res with
      | done out => simp [engineLoop, h1]; exact ha
      | retryPull =>
          simp only [engineLoop, h1]
          exact ih none t' ha (fun c hc => Option.noConfusion hc)
      | retrySame c =>
          simp only [engineLoop, h1]
          exact ih (some c) t' ha
            (fun c' hc' => by
              cases hc'
              exact hr c rfl)

/-- One submission transmits at most one commit. -/
theorem submitOnce_submit_le (E : EngineCtx) (commit : PageCommit) (t : Trace) :
    (submitOnce E commit t).2.submitCount ≤ t.submitCount + 1 := by
  unfold submitOnce
  split
  · cases h : E.acks t.submitCount <;> simp [h]
  · simp

/-- One attempt transmits at most one commit. -/
theorem oneAttempt_submit_le (E : EngineCtx) (copt : Option PageCommit) (t : Trace) :
    (oneAttempt E copt t).2.submitCount ≤ t.submitCount + 1 := by
  cases copt with
  | some commit => exact submitOnce_submit_le E commit t
  | none =>
      simp only [oneAttempt]
      rcases hcomp : E.computer (E.pulls t.pullCount) with _ | ⟨c, cs⟩
      · simp
      · exact submitOnce_submit_le E _ _

/-- With retry budget `r` left, the loop transmits at most `r + 1` further
commits. -/
theorem engineLoop_submit_le (E : EngineCtx) :
    ∀ (r : Nat) (copt : Option PageCommit) (t : Trace),
      (engineLoop E r copt t).2.submitCount ≤ t.submitCount + r + 1 := by
  intro r
  induction r with
  | zero =>
      intro copt t
      rcases h1 : oneAttempt E copt t with ⟨res, t'⟩
      have hb : t'.submitCount ≤ t.submitCount + 1 := by
        have hb0 := oneAttempt_submit_le E copt t
        rw [h1] at hb0
        exact hb0
      cases res <;> simp [engineLoop, h1] <;> omega
  | succ r ih =>
      intro copt t
      rcases h1 : oneAttempt E copt t with ⟨res, t'⟩
      have hb : t'.submitCount ≤ t.submitCount + 1 := by
        have hb0 := oneAttempt_submit_le E copt t
        rw [h1] at hb0
        exact hb0
      cases res with
      | done out => simp [engineLoop, h1]; omega
      | retryPull =>
          simp only [engineLoop, h1]
          have := ih none t'
          omega
      | retrySame c =>
          simp only [engineLoop, h1]
          have := ih (some c) t'
          omega

/-- Under unbroken stale-parent conflicts (every acknowledgement is
not-fast-forward) and a Change Computer that always yields a nonempty valid
change list, the loop spends its whole budget, fails with the exhaustion
error, and transmits exactly `r + 1` commits. -/
theorem engineLoop_all_nff (E : EngineCtx)
    (hack : ∀ n, E.acks n = CommitAck.notFastForwardError)
    (hcomp : ∀ h, E.computer h ≠ [] ∧ validChanges (E.computer h) = true) :
    ∀ (r : Nat) (t : Trace),
      (engineLoop E r none t).1 = PushOutcome.failedRetryExhausted ∧
      (engineLoop E r none t).2.submitCount = t.submitCount + r + 1 := by
  have hstep : ∀ t : Trace, oneAttempt E none t =
      (StepResult.retryPull,
        { t with pullCount := t.pullCount + 1, computeCount := t.computeCount + 1,
                 submitCount := t.submitCount + 1,
                 sent := t.sent ++
                   [({ parentId := (E.pulls t.pullCount).commitId,
                       projectId := E.projectId,
                       pageId := (E.pulls t.pullCount).pageId,
                       userId := E.userId,
                       changes := E.computer (E.pulls t.pullCount) }, t.pullCount + 1)] }) := by
    intro t
    rcases hc : E.computer (E.pulls t.pullCount) with _ | ⟨c, cs⟩
    · exact absurd hc (hcomp _).1
    · have hv : validChanges (c :: cs) = true := hc ▸ (hcomp (E.pulls t.pullCount)).2
      simp [oneAttempt, submitOnce, hc, hv, hack]
  intro r
  induction r with
  | zero =>
      intro t
      simp [engineLoop, hstep t]
  | succ r ih =>
      intro t
      simp only [engineLoop, hstep t]
      refine ⟨(ih _).1, ?_⟩
      rw [(ih _).2]
      show t.submitCount + 1 + r + 1 = t.submitCount + (r + 1) + 1
      omega

/-- Each protocol step preserves the mutual-exclusion invariant of the
per-document lock. -/
theorem syncStep_preserved (docOf : Nat → String) (s u : Nat → Phase)
    (hstep : SyncStep docOf s u)
    (ih : ∀ i j, i ≠ j → docOf i = docOf j →
        ¬(s i = Phase.holding ∧ s j = Phase.holding)) :
    ∀ i j, i ≠ j → docOf i = docOf j →
      ¬(u i = Phase.holding ∧ u j = Phase.holding) := by
  cases hstep with
  | request i0 h0 =>
      intro i j hij hd h
      by_cases hi : i = i0
      · have := h.1
        rw [hi] at this
        simp [setPhase] at this
      · by_cases hj : j = i0
        · have := h.2
          rw [hj] at this
          simp [setPhase] at this
        · have h1 : s i = Phase.holding := by
            have := h.1
            simp [setPhase, hi] at this
            exact this
          have h2 : s j = Phase.holding := by
            have := h.2
            simp [setPhase, hj] at this
            exact this
          exact ih i j hij hd ⟨h1, h2⟩
  | acquire i0 h0 hguard =>
      intro i j hij hd h
      by_cases hi : i = i0
      · have hji : j ≠ i0 := fun hji => hij (hi.trans hji.symm)
        have hsj : s j = Phase.holding := by
          have := h.2
          simp [setPhase, hji] at this
          exact this
        have hdj : docOf j = docOf i0 := by rw [← hi]; exact hd.symm
        exact hguard j hji hdj hsj
      · by_cases hj : j = i0
        · have hsi : s i = Phase.holding := by
            have := h.1
            simp [setPhase, hi] at this
            exact this
          have hdi : docOf i = docOf i0 := by rw [← hj]; exact hd
          exact hguard i hi hdi hsi
        · have h1 : s i = Phase.holding := by
            have := h.1
            simp [setPhase, hi] at this
            exact this
          have h2 : s j = Phase.holding := by
            have := h.2
            simp [setPhase, hj] at this
            exact this
          exact ih i j hij hd ⟨h1, h2⟩
  | release i0 h0 =>
      intro i j hij hd h
      by_cases hi : i = i0
      · have := h.1
        rw [hi] at this
        simp [setPhase] at this
      · by_cases hj : j = i0
        · have := h.2
          rw [hj] at this
          simp [setPhase] at this
        · have h1 : s i = Phase.holding := by
            have := h.1
            simp [setPhase, hi] at this
            exact this
          have h2 : s j = Phase.holding := by
            have := h.2
            simp [setPhase, hj] at this
            exact this
          exact ih i j hij hd ⟨h1, h2⟩

/-- C1: in every engine run, every transmitted commit — in particular the
finally accepted one — has as `parentId` the `commitId` of the snapshot
pulled most recently before its transmission (pull number k-1 of the k pulls
performed so far), never a snapshot of an earlier attempt; and in the
scripted run with one stale-parent conflict followed by success the engine
performs exactly one additional pull (2 in total) and one additional Change
Computer invocation (2 in total), and the final commit's parent is the second
snapshot's commit id "c1", not the first snapshot's "c0". -/
theorem C1_commit_parent_is_latest_pull :
    (∀ (E : EngineCtx) (budget : Nat) (c : PageCommit) (k : Nat),
        (c, k) ∈ (push E budget).2.sent →
        1 ≤ k ∧ c.parentId = (E.pulls (k - 1)).commitId) ∧
    (push twoAttemptCtx 3 =
        (PushOutcome.succeeded "c2",
         { pullCount := 2, computeCount := 2, submitCount := 2,
           sent := [(demoCommitOne, 1), (demoCommitTwo, 2)] }) ∧
     demoCommitTwo.parentId = headTwo.commitId ∧
     demoCommitOne.parentId = headOne.commitId ∧
     headOne.commitId ≠ headTwo.commitId) := by
  constructor
  · intro E budget c k hmem
    refine engineLoop_anchored E budget none initTrace ?_ ?_ c k hmem
    · intro c k h
      simp [initTrace] at h
    · intro c h
      exact Option.noConfusion h
  · exact ⟨rfl, rfl, rfl, by decide⟩

/-- Witness for C1: the accepted commit of the scripted two-attempt run is
anchored to the second (most recent) snapshot. -/
theorem C1_commit_parent_is_latest_pull_witness :
    1 ≤ 2 ∧ demoCommitTwo.parentId = (twoAttemptCtx.pulls (2 - 1)).commitId :=
  C1_commit_parent_is_latest_pull.1 twoAttemptCtx 3 demoCommitTwo 2 (by decide)

/-- C2: whenever the Change Computer returns the empty change list for the
pulled head, the engine transmits no commit at all (`submitCount` is 0, the
sent list empty) and succeeds with the head's own commit id, for every retry
budget. -/
theorem C2_empty_changes_no_commit (E : EngineCtx) (budget : Nat)
    (h : E.computer (E.pulls 0) = []) :
    push E budget = (PushOutcome.succeeded (E.pulls 0).commitId,
      { pullCount := 1, computeCount := 1, submitCount := 0, sent := [] }) := by
  cases budget <;> simp [push, engineLoop, oneAttempt, initTrace, h]

/-- Witness for C2: a run whose Change Computer yields no changes succeeds
with the head's commit id "c0" and transmits nothing. -/
theorem C2_empty_changes_no_commit_witness :
    push noopCtx 3 = (PushOutcome.succeeded "c0",
      { pullCount := 1, computeCount := 1, submitCount := 0, sent := [] }) :=
  C2_empty_changes_no_commit noopCtx 3 rfl

/-- C3: under an unbroken sequence of stale-parent conflicts the engine
terminates with the distinct exhaustion outcome (not the underlying conflict
kind) after exactly budget + 1 transmitted commits; and in full generality no
run ever transmits more than budget + 1 commits. -/
theorem C3_conflict_exhaustion_bounded (E : EngineCtx) (budget : Nat)
    (hack : ∀ n, E.acks n = CommitAck.notFastForwardError)
    (hcomp : ∀ h, E.computer h ≠ [] ∧ validChanges (E.computer h) = true) :
    ((push E budget).1 = PushOutcome.failedRetryExhausted ∧
     (push E budget).2.submitCount = budget + 1) ∧
    (∀ (E2 : EngineCtx) (b2 : Nat), (push E2 b2).2.submitCount ≤ b2 + 1) := by
  refine ⟨⟨(engineLoop_all_nff E hack hcomp budget initTrace).1, ?_⟩, ?_⟩
  · simpa [push, initTrace] using (engineLoop_all_nff E hack hcomp budget initTrace).2
  · intro E2 b2
    simpa [push, initTrace] using engineLoop_submit_le E2 b2 none initTrace

/-- Witness for C3: with budget 2 and every acknowledgement not-fast-forward,
the run ends in the exhaustion error after 3 transmissions. -/
theorem C3_conflict_exhaustion_bounded_witness :
    ((push nffCtx 2).1 = PushOutcome.failedRetryExhausted ∧
     (push nffCtx 2).2.submitCount = 2 + 1) ∧
    (∀ (E2 : EngineCtx) (b2 : Nat), (push E2 b2).2.submitCount ≤ b2 + 1) :=
  C3_conflict_exhaustion_bounded nffCtx 2 (fun _ => rfl)
    (fun _ => ⟨fun hh => List.noConfusion hh, rfl⟩)

/-- C4: when the server rejects the first submission with the duplicate-title
error, the engine performs no additional pull (1 pull in total), transmits
exactly that one commit, and returns the terminal duplicate-title outcome —
identically for every retry budget, so no budget is consumed. -/
theorem C4_duplicate_title_terminal (E : EngineCtx) (budget : Nat)
    (hne : E.computer (E.pulls 0) ≠ [])
    (hval : validChanges (E.computer (E.pulls 0)) = true)
    (hack : E.acks 0 = CommitAck.duplicateTitleError) :
    push E budget = (PushOutcome.failedDuplicateTitle,
      { pullCount := 1, computeCount := 1, submitCount := 1,
        sent := [({ parentId := (E.pulls 0).commitId, projectId := E.projectId,
                    pageId := (E.pulls 0).pageId, userId := E.userId,
                    changes := E.computer (E.pulls 0) }, 1)] }) := by
  rcases hc : E.computer (E.pulls 0) with _ | ⟨c, cs⟩
  · exact absurd hc hne
  · have hv : validChanges (c :: cs) = true := hc ▸ hval
    cases budget <;>
      simp [push, engineLoop, oneAttempt, submitOnce, initTrace, hc, hv, hack]

/-- Witness for C4: a scripted duplicate-title rejection is terminal on the
first attempt even with budget 5. -/
theorem C4_duplicate_title_terminal_witness :
    push dupCtx 5 = (PushOutcome.failedDuplicateTitle,
      { pullCount := 1, computeCount := 1, submitCount := 1,
        sent := [(demoCommitOne, 1)] }) :=
  C4_duplicate_title_terminal dupCtx 5 (fun hh => List.noConfusion hh) rfl rfl

/-- C5: a change list that combines a SetPin or DeletePage element with any
second element violates the homogeneity invariant (`validChanges` is false),
and the engine rejects such a commit locally: the run ends in the
precondition failure with the trace — hence the set of transmitted commits —
completely unchanged, before any network transmission. -/
theorem C5_mixed_changes_rejected_locally (l : List ChangeU) (x : ChangeU)
    (hx : x ∈ l) (hnc : isContentChange x = false) (hlen : 2 ≤ l.length) :
    validChanges l = false ∧
    ∀ (E : EngineCtx) (budget : Nat) (commit : PageCommit) (t : Trace),
      commit.changes = l →
      engineLoop E budget (some commit) t = (PushOutcome.failedPrecondition, t) := by
  have hall : l.all isContentChange = false := by
    rw [List.all_eq_false]
    exact ⟨x, hx, by simp [hnc]⟩
  have hvc : validChanges l = false := by
    rcases l with _ | ⟨a, _ | ⟨b, rest⟩⟩
    · simp at hx
    · simp at hlen
    · simp [validChanges] at hall ⊢
      exact hall
  refine ⟨hvc, ?_⟩
  intro E budget commit t hcl
  have hvcc : validChanges commit.changes = false := hcl ▸ hvc
  cases budget <;> simp [engineLoop, oneAttempt, submitOnce, hvcc]

/-- Witness for C5: a pin change mixed with a content change is rejected
locally and nothing is transmitted. -/
theorem C5_mixed_changes_rejected_locally_witness :
    engineLoop twoAttemptCtx 3
        (some { demoCommitOne with changes := [ChangeU.pin 3, demoChange] })
        initTrace
      = (PushOutcome.failedPrecondition, initTrace) :=
  (C5_mixed_changes_rejected_locally [ChangeU.pin 3, demoChange]
      (ChangeU.pin 3) (by decide) rfl (by decide)).2
    twoAttemptCtx 3 _ initTrace rfl

/-- C6: the commit-error classifier recognizes exactly the three server error
names: `isPageCommitError e` is true if and only if `e.name` is
"SocketIOError", "DuplicateTitleError" or "NotFastForwardError". -/
theorem C6_isPageCommitError_exactly_three_names (e : CommitErrorLike) :
    isPageCommitError e = true ↔
      (e.name = "SocketIOError" ∨ e.name = "DuplicateTitleError" ∨
       e.name = "NotFastForwardError") := by
  simp [isPageCommitError, pageCommitErrorNames, List.contains]

/-- Counterexample for C7: `pull` maps a not-found failure and a transport
failure of `getPage` to one and the same thrown error value, so the two
failure kinds are not distinguishable by the caller, contrary to the claim. -/
theorem C7_pull_errors_indistinguishable :
    pull "proj" "title" (Except.error (GetPageError.notFoundError "not found"))
      = pull "proj" "title" (Except.error (GetPageError.networkError "offline")) := rfl

/-- C7 (amended): `pull` surfaces every failed `getPage` result — forbidden,
not-found and transport failures alike — as the same single generic error
whose message depends only on the project and title, and on success returns
the snapshot's commitId, pageId, persistent flag, image, pin, links,
projectLinks and lines. -/
theorem C7_pull_single_error_surface :
    (∀ (project title : String) (e1 e2 : GetPageError),
        pull project title (Except.error e1) = pull project title (Except.error e2)) ∧
    (∀ (project title : String) (p : PageRes),
        pull project title (Except.ok p) =
          Except.ok { commitId := p.commitId, pageId := p.id,
                      persistent := p.persistent, image := p.image,
                      pin := p.pin, links := p.links,
                      projectLinks := p.projectLinks, lines := p.lines }) :=
  ⟨fun _ _ _ _ => rfl, fun _ _ _ => rfl⟩

/-- C8: in every state reachable under the per-document serialization
protocol, no two distinct callers synchronizing the same document hold
in-flight commits simultaneously. -/
theorem C8_per_document_serialization (docOf : Nat → String) (s : Nat → Phase)
    (hs : SyncReachable docOf s) :
    ∀ i j, i ≠ j → docOf i = docOf j →
      ¬(s i = Phase.holding ∧ s j = Phase.holding) := by
  induction hs with
  | start =>
      intro i j hij hd h
      exact absurd h.1 (by simp)
  | step _ hstep ih =>
      exact syncStep_preserved _ _ _ hstep ih

/-- Witness for C8: in the initial all-idle state, two callers of the same
document are not both in flight. -/
theorem C8_per_document_serialization_witness :
    ¬(Phase.idle = Phase.holding ∧ Phase.idle = Phase.holding) :=
  C8_per_document_serialization (fun _ => "doc") (fun _ => Phase.idle)
    SyncReachable.start 0 1 (by decide) rfl

/-- Counterexample for C9: on a non-persistent page the `deletePage` run
resolves successfully with the head's commit id ("c0"), which is not the page
title ("DemoTitle") — the claim's "resolves successfully with the page title"
fails. -/
theorem C9_resolves_commit_id_not_title :
    (deletePageRun "proj" "user" "DemoTitle" (fun _ => nonPersistentHead)
        (fun _ => CommitAck.ok "x") 3).1 = PushOutcome.succeeded "c0" ∧
    "c0" ≠ "DemoTitle" := ⟨rfl, by decide⟩

/-- C9 (amended): `deletePage` is a safe no-op on pages that do not persist —
its change computer yields the empty change list exactly when
`persistent = false`, in which case no commit is transmitted and the call
resolves successfully with the unchanged head's commit id (not the page
title); only when `persistent = true` does it submit exactly the single
page-deletion change. -/
theorem C9_deletePage_no_op_when_not_persistent :
    (∀ h : HeadData, h.persistent = false → deletePageComputer h = []) ∧
    (∀ h : HeadData, h.persistent = true →
        deletePageComputer h = [ChangeU.deletePage false]) ∧
    (∀ (projectId userId title : String) (pulls : Nat → HeadData)
        (acks : Nat → CommitAck) (budget : Nat),
        (pulls 0).persistent = false →
        deletePageRun projectId userId title pulls acks budget =
          (PushOutcome.succeeded (pulls 0).commitId,
           { pullCount := 1, computeCount := 1, submitCount := 0, sent := [] })) ∧
    (∀ (projectId userId title : String) (pulls : Nat → HeadData)
        (acks : Nat → CommitAck) (budget : Nat) (cid : String),
        (pulls 0).persistent = true → acks 0 = CommitAck.ok cid →
        deletePageRun projectId userId title pulls acks budget =
          (PushOutcome.succeeded cid,
           { pullCount := 1, computeCount := 1, submitCount := 1,
             sent := [({ parentId := (pulls 0).commitId, projectId := projectId,
                         pageId := (pulls 0).pageId, userId := userId,
                         changes := [ChangeU.deletePage false] }, 1)] })) := by
  refine ⟨?_, ?_, ?_, ?_⟩
  · intro h hp
    simp [deletePageComputer, hp]
  · intro h hp
    simp [deletePageComputer, hp]
  · intro projectId userId title pulls acks budget hp
    cases budget <;>
      simp [deletePageRun, push, engineLoop, oneAttempt, deletePageComputer,
        initTrace, hp]
  · intro projectId userId title pulls acks budget cid hp hack
    cases budget <;>
      simp [deletePageRun, push, engineLoop, oneAttempt, submitOnce,
        deletePageComputer, validChanges, isContentChange, initTrace, hp, hack]

/-- Witness for C9: the scripted non-persistent run resolves successfully
with the head's commit id and transmits nothing. -/
theorem C9_deletePage_no_op_when_not_persistent_witness :
    deletePageRun "proj" "user" "T" (fun _ => nonPersistentHead)
        (fun _ => CommitAck.ok "x") 3
      = (PushOutcome.succeeded "c0",
         { pullCount := 1, computeCount := 1, submitCount := 0, sent := [] }) :=
  C9_deletePage_no_op_when_not_persistent.2.2.1 "proj" "user" "T" _ _ 3 rfl

/-- Counterexample for C10: with `init.csrf` provided as the empty string
(and the ambient global set), `getCSRFToken` neither returns the provided
value nor the global — it fetches the profile (the Boolean records that a
network request happened), contrary to the claimed precedence. -/
theorem C10_empty_csrf_fetches_profile :
    getCSRFToken (some "") (some "globaltok")
        (Except.ok { csrfToken := "profiletok" })
      = (true, Except.ok "profiletok") := rfl

/-- C10 (amended): `getCSRFToken` first takes `init.csrf` if defined,
otherwise the ambient global `_csrf`; the selected value is returned with no
network request only when it is non-empty (JavaScript truthiness); when both
are undefined or the selected value is the empty string, the profile is
fetched and its `csrfToken` returned. -/
theorem C10_csrf_precedence (i g : Option String)
    (p : Except CsrfError UserProfile) :
    (∀ s, i = some s → s ≠ "" → getCSRFToken i g p = (false, Except.ok s)) ∧
    (∀ s, i = none → g = some s → s ≠ "" →
        getCSRFToken i g p = (false, Except.ok s)) ∧
    (jsCoalesce i g = none ∨ jsCoalesce i g = some "" →
        getCSRFToken i g p = (true, p.map UserProfile.csrfToken)) := by
  refine ⟨?_, ?_, ?_⟩
  · intro s hi hs
    subst hi
    simp [getCSRFToken, jsCoalesce, hs]
  · intro s hi hg hs
    subst hi; subst hg
    simp [getCSRFToken, jsCoalesce, hs]
  · intro h
    rcases h with h | h <;> simp [getCSRFToken, h]

/-- Witness for C10: a non-empty provided token is returned unchanged with no
network request. -/
theorem C10_csrf_precedence_witness :
    getCSRFToken (some "tok") none (Except.ok { csrfToken := "x" })
      = (false, Except.ok "tok") :=
  (C10_csrf_precedence (some "tok") none
      (Except.ok { csrfToken := "x" })).1 "tok" rfl (by decide)

end ScrapboxStd
